import Mathlib

/-!
Verification of the misskey-gh-notify webhook pipeline.

A shallow embedding of `src/index.ts`: the HMAC-SHA1 signature check, the
source-IP allow list, the per-event handler registry built from environment
flags, the event formatters, and the Koa route for `POST /github`.
Machine integers are modelled as `Nat` with explicit reduction modulo `2^32`
where the 32-bit SHA-1 arithmetic overflows.
-/

namespace GhNotify

/-! ## Bytes and 32-bit arithmetic -/

/-- Reduce modulo `2^32`, the word size of SHA-1 arithmetic. -/
def w32 (n : Nat) : Nat := n % 4294967296

/-- Left rotation of a 32-bit word `n` (assumed `< 2^32`) by `b` bits. -/
def rotl (b n : Nat) : Nat := w32 (n * 2 ^ b) + n / 2 ^ (32 - b)

/-- Big-endian bytes (`k` of them) of a natural number. -/
def beBytes : Nat → Nat → List Nat
  | 0, _ => []
  | k + 1, n => beBytes k (n / 256) ++ [n % 256]

/-- The four big-endian bytes of a 32-bit word. -/
def toBE4 (n : Nat) : List Nat := beBytes 4 n

/-- Group a byte list into big-endian 32-bit words. -/
def bytesToWords : List Nat → List Nat
  | a :: b :: c :: d :: rest => (((a * 256 + b) * 256 + c) * 256 + d) :: bytesToWords rest
  | _ => []

/-! ## SHA-1 (`crypto.createHmac('sha1', ...)` in the source) -/

/-- SHA-1 padding: `0x80`, zeros to 56 mod 64, then the 8-byte bit length. -/
def sha1Pad (msg : List Nat) : List Nat :=
  msg ++ [128] ++ List.replicate ((56 + 64 - (msg.length + 1) % 64) % 64) 0
      ++ beBytes 8 (msg.length * 8)

/-- Extend a 16-word chunk, appending `k` further schedule words. -/
def sha1Ext : Nat → List Nat → List Nat
  | 0, ws => ws
  | k + 1, ws =>
    let n := ws.length
    let x := ((ws.getD (n - 3) 0) ^^^ (ws.getD (n - 8) 0))
               ^^^ ((ws.getD (n - 14) 0) ^^^ (ws.getD (n - 16) 0))
    sha1Ext k (ws ++ [rotl 1 x])

/-- The SHA-1 round function, by round index. -/
def sha1F (i b c d : Nat) : Nat :=
  if i < 20 then (b &&& c) ||| ((4294967295 - b) &&& d)
  else if i < 40 then (b ^^^ c) ^^^ d
  else if i < 60 then ((b &&& c) ||| (b &&& d)) ||| (c &&& d)
  else (b ^^^ c) ^^^ d

/-- The SHA-1 round constant, by round index. -/
def sha1K (i : Nat) : Nat :=
  if i < 20 then 1518500249
  else if i < 40 then 1859775393
  else if i < 60 then 2400959708
  else 3395469782

/-- Run the 80 SHA-1 rounds over a word schedule. -/
def sha1Rounds : Nat → List Nat → Nat × Nat × Nat × Nat × Nat → Nat × Nat × Nat × Nat × Nat
  | _, [], s => s
  | i, w :: ws, (a, b, c, d, e) =>
    let t := w32 (rotl 5 a + sha1F i b c d + e + sha1K i + w)
    sha1Rounds (i + 1) ws (t, a, rotl 30 b, c, d)

/-- Fold the padded message, 64-byte chunk by chunk, through the compression.
The first argument is fuel bounding the number of chunks, so the recursion is
structural and kernel-reducible. -/
def sha1Chunks : Nat → List Nat → Nat × Nat × Nat × Nat × Nat → Nat × Nat × Nat × Nat × Nat
  | 0, _, h => h
  | _, [], h => h
  | f + 1, b :: bs, (h0, h1, h2, h3, h4) =>
    let ws := sha1Ext 64 (bytesToWords ((b :: bs).take 64))
    let s := sha1Rounds 0 ws (h0, h1, h2, h3, h4)
    sha1Chunks f ((b :: bs).drop 64)
      (w32 (h0 + s.1), w32 (h1 + s.2.1), w32 (h2 + s.2.2.1),
       w32 (h3 + s.2.2.2.1), w32 (h4 + s.2.2.2.2))

/-- SHA-1 of a byte list, as its 20-byte digest. -/
def sha1 (msg : List Nat) : List Nat :=
  let padded := sha1Pad msg
  let s := sha1Chunks padded.length padded
    (1732584193, 4023233417, 2562383102, 271733878, 3285377520)
  toBE4 s.1 ++ toBE4 s.2.1 ++ toBE4 s.2.2.1 ++ toBE4 s.2.2.2.1 ++ toBE4 s.2.2.2.2

/-- HMAC-SHA1 over byte lists, as in node's `crypto.createHmac('sha1', key)`. -/
def hmacSha1 (key msg : List Nat) : List Nat :=
  let k0 := if key.length > 64 then sha1 key else key
  let kp := k0 ++ List.replicate (64 - k0.length) 0
  sha1 ((kp.map (fun b => b ^^^ 92)) ++ sha1 ((kp.map (fun b => b ^^^ 54)) ++ msg))

/-- Lower-case hex digit. -/
def hexDigitChar (n : Nat) : Char := "0123456789abcdef".data.getD n '0'

/-- Two-digit lower-case hex of a byte. -/
def hexByte (b : Nat) : String := String.mk [hexDigitChar (b / 16), hexDigitChar (b % 16)]

/-- Lower-case hex string of a byte list: `.digest('hex')` in the source. -/
def hexDigest (bs : List Nat) : String := String.join (bs.map hexByte)

/-- UTF-8 encoding of one character. -/
def utf8Char (c : Char) : List Nat :=
  let n := c.toNat
  if n < 128 then [n]
  else if n < 2048 then [192 + n / 64, 128 + n % 64]
  else if n < 65536 then [224 + n / 4096, 128 + n / 64 % 64, 128 + n % 64]
  else [240 + n / 262144, 128 + n / 4096 % 64, 128 + n / 64 % 64, 128 + n % 64]

/-- UTF-8 bytes of a string, the bytes node's `crypto`/`Buffer` operate on. -/
def utf8 (s : String) : List Nat := s.data.foldr (fun c acc => utf8Char c ++ acc) []

/-! ## JSON values

`ctx.request.body` is the JSON document parsed by `koa-bodyparser`
(`JSON.parse`), and the route re-serializes it with `JSON.stringify`.
Numbers are modelled as integers, which covers every field the handlers read.
-/

inductive Json where
  | null
  | str (s : String)
  | num (n : Int)
  | bool (b : Bool)
  | arr (xs : List Json)
  | obj (fs : List (String × Json))

/-- Character-level JSON string escaping. Modelled from the spec: the
platform's `JSON.stringify` string escaping (`"` , `\`, newline, tab, CR,
other control characters as `\u00XX`). -/
def jsonEscapeChar (c : Char) : List Char :=
  if c = '\"' then ['\\', '\"']
  else if c = '\\' then ['\\', '\\']
  else if c = '\n' then ['\\', 'n']
  else if c = '\t' then ['\\', 't']
  else if c = '\r' then ['\\', 'r']
  else if c.toNat < 32 then '\\' :: 'u' :: '0' :: '0' :: (hexByte c.toNat).data
  else [c]

/-- A JSON string literal with quotes, as `JSON.stringify` renders strings. -/
def jsonQuote (s : String) : String :=
  "\"" ++ String.mk (s.data.foldr (fun c acc => jsonEscapeChar c ++ acc) []) ++ "\""

mutual

/-- Modelled from the spec: the platform's `JSON.stringify` (no spacing,
object fields in their stored order), which the route applies to the parsed
body before computing the HMAC. -/
def Json.stringify : Json → String
  | .null => "null"
  | .bool b => if b then "true" else "false"
  | .num n => toString n
  | .str s => jsonQuote s
  | .arr xs => "[" ++ stringifyArr xs ++ "]"
  | .obj fs => "\x7b" ++ stringifyObj fs ++ "\x7d"

/-- Comma-separated serialization of array elements. -/
def stringifyArr : List Json → String
  | [] => ""
  | [x] => Json.stringify x
  | x :: y :: xs => Json.stringify x ++ "," ++ stringifyArr (y :: xs)

/-- Comma-separated serialization of object fields. -/
def stringifyObj : List (String × Json) → String
  | [] => ""
  | [(k, v)] => jsonQuote k ++ ":" ++ Json.stringify v
  | (k, v) :: f :: fs => jsonQuote k ++ ":" ++ Json.stringify v ++ "," ++ stringifyObj (f :: fs)

end

/-- Whitespace accepted between JSON tokens. -/
def isWsChar (c : Char) : Bool := c = ' ' || c = '\n' || c = '\t' || c = '\r'

/-- Drop leading JSON whitespace. -/
def skipWs : List Char → List Char
  | [] => []
  | c :: cs => if isWsChar c then skipWs cs else c :: cs

/-- Parse the inside of a JSON string after the opening quote, returning the
decoded content and the remainder after the closing quote. -/
def parseStringChars : Nat → List Char → Option (List Char × List Char)
  | 0, _ => none
  | _, [] => none
  | f + 1, c :: cs =>
    if c = '\"' then some ([], cs)
    else if c = '\\' then
      match cs with
      | [] => none
      | e :: cs2 =>
        let d? : Option Char :=
          if e = '\"' then some '\"'
          else if e = '\\' then some '\\'
          else if e = '/' then some '/'
          else if e = 'n' then some '\n'
          else if e = 't' then some '\t'
          else if e = 'r' then some '\r'
          else none
        match d? with
        | some d => (parseStringChars f cs2).map (fun p => (d :: p.1, p.2))
        | none => none
    else (parseStringChars f cs).map (fun p => (c :: p.1, p.2))

/-- Consume a run of decimal digits into an accumulator. -/
def parseNatAcc : Nat → Nat → List Char → Nat × List Char
  | 0, acc, cs => (acc, cs)
  | _, acc, [] => (acc, [])
  | f + 1, acc, c :: rest =>
    if c.isDigit then parseNatAcc f (acc * 10 + (c.toNat - 48)) rest else (acc, c :: rest)

mutual

/-- Modelled from the spec: the platform's `JSON.parse` used by
`koa-bodyparser` to produce `ctx.request.body`, restricted to the integer
numbers the payloads use. Fuel-indexed recursive descent. -/
def parseVal : Nat → List Char → Option (Json × List Char)
  | 0, _ => none
  | f + 1, cs =>
    match skipWs cs with
    | [] => none
    | c :: rest =>
      if c = 'n' then
        if rest.take 3 = ['u', 'l', 'l'] then some (.null, rest.drop 3) else none
      else if c = 't' then
        if rest.take 3 = ['r', 'u', 'e'] then some (.bool true, rest.drop 3) else none
      else if c = 'f' then
        if rest.take 4 = ['a', 'l', 's', 'e'] then some (.bool false, rest.drop 4) else none
      else if c = '\"' then
        (parseStringChars f rest).map (fun p => (.str (String.mk p.1), p.2))
      else if c = '[' then
        match skipWs rest with
        | ']' :: r => some (.arr [], r)
        | cs2 => (parseArrItems f cs2).map (fun p => (.arr p.1, p.2))
      else if c = '\x7b' then
        match skipWs rest with
        | '\x7d' :: r => some (.obj [], r)
        | cs2 => (parseObjItems f cs2).map (fun p => (.obj p.1, p.2))
      else if c = '-' then
        match rest with
        | d :: _ =>
          if d.isDigit then
            let p := parseNatAcc f 0 rest
            some (.num (-(p.1 : Int)), p.2)
          else none
        | [] => none
      else if c.isDigit then
        let p := parseNatAcc f 0 (c :: rest)
        some (.num (p.1 : Int), p.2)
      else none

/-- Array elements after `[` (the empty array is handled by the caller). -/
def parseArrItems : Nat → List Char → Option (List Json × List Char)
  | 0, _ => none
  | f + 1, cs =>
    match parseVal f cs with
    | none => none
    | some (v, r) =>
      match skipWs r with
      | ',' :: r2 => (parseArrItems f r2).map (fun p => (v :: p.1, p.2))
      | ']' :: r2 => some ([v], r2)
      | _ => none

/-- Object fields after the opening brace (the empty object is handled by the
caller). -/
def parseObjItems : Nat → List Char → Option (List (String × Json) × List Char)
  | 0, _ => none
  | f + 1, cs =>
    match skipWs cs with
    | '\"' :: r =>
      match parseStringChars f r with
      | none => none
      | some (k, r2) =>
        match skipWs r2 with
        | ':' :: r3 =>
          match parseVal f r3 with
          | none => none
          | some (v, r4) =>
            match skipWs r4 with
            | ',' :: r5 => (parseObjItems f r5).map (fun p => ((String.mk k, v) :: p.1, p.2))
            | '\x7d' :: r5 => some ([(String.mk k, v)], r5)
            | _ => none
        | _ => none
    | _ => none

end

/-- Parse a whole JSON document; trailing content other than whitespace is
rejected, as `JSON.parse` rejects it. -/
def Json.parse (s : String) : Option Json :=
  match parseVal (2 * s.length + 2) s.data with
  | some (j, rest) => if skipWs rest = [] then some j else none
  | none => none

/-! ### JS-style field access

The handlers read payload fields dynamically (`event.commit`, `review.body`,
`parentStatuses[0]`). Absent fields are JavaScript `undefined`, modelled as
`none`. -/

/-- `j.k` member access on a parsed JSON value: `none` models `undefined`. -/
def Json.jGet (j : Json) (k : String) : Option Json :=
  match j with
  | .obj fs => fs.lookup k
  | _ => none

/-- The value if it is a JSON string. -/
def Json.asStr : Json → Option String
  | .str s => some s
  | _ => none

/-- The element list if the value is a JSON array. -/
def Json.asArr : Json → Option (List Json)
  | .arr xs => some xs
  | _ => none

/-- String-valued member access, `none` when absent or not a string. -/
def jGetStr (j : Json) (k : String) : Option String := j.jGet k >>= Json.asStr

/-- JS `value[0]`: first array element, or the `"0"` property of an object. -/
def jIndex0 : Json → Option Json
  | .arr (x :: _) => some x
  | .obj fs => fs.lookup "0"
  | _ => none

/-! ## Notification publishing

`post(text, home = true)` sends one note-creation request. A handler's
observable effect is the list of such calls. -/

/-- One call to `post`: the note text and the `home` visibility flag
(`home = false` publishes with visibility `public`). -/
structure Post where
  text : String
  home : Bool
deriving DecidableEq

/-! ## Event handlers

One definition per `handler.on(...)` in `src/index.ts`. Each takes the parsed
payload and returns the `post` calls it makes. Where the source would throw a
`TypeError` on a missing required field (reading a property of `undefined`) or
would render `undefined` into the template, the model returns no post; no
claim exercises those malformed payloads. -/

/-- The evaluation of the source's `parentStatuses[0]?.state`: reading
element 0 of a resolved `null` throws a TypeError — the `.catch` only logs
it and nothing is posted — modelled as `none`. Every other resolved value
evaluates to an optional state string: element 0 of an array, the `"0"`
property of an object, and `undefined` (further optional-chained to
`undefined`) for the remaining primitives. -/
def parentState0 : Json → Option (Option String)
  | .null => none
  | j => some (jIndex0 j >>= fun x => jGetStr x "state")

/-- `handler.on('status', ...)`: on state `error`/`failure`, GET
`{parent.url}/statuses` and choose between the "still failed" and
"build failed" messages. `fetch` is the outcome of that GET: `Except.error`
models a rejected promise (network error or `response.json()` failing on a
malformed body), which the source's `.catch` only logs — no post is made.
A resolved `null` also reaches the `.catch` (the `[0]` access throws), so it
too posts nothing. -/
def handleStatus (fetch : Except Unit Json) (event : Json) : List Post :=
  let st := jGetStr event "state"
  if st = some "error" ∨ st = some "failure" then
    match event.jGet "commit" with
    | none => []
    | some commit =>
      match commit.jGet "parents" >>= jIndex0 with
      | none => []
      | some _parent =>
        match fetch with
        | .error _ => []
        | .ok parentStatuses =>
          match parentState0 parentStatuses with
          | none => []
          | some parentState =>
            let stillFailed := parentState = some "failure" ∨ parentState = some "error"
            match commit.jGet "commit" >>= fun c => jGetStr c "message", jGetStr commit "html_url" with
            | some m, some u =>
              if stillFailed then
                [⟨"⚠️ **BUILD STILL FAILED** ⚠️: [" ++ m ++ "](" ++ u ++ ")", true⟩]
              else
                [⟨"🚨 **BUILD FAILED** 🚨: [" ++ m ++ "](" ++ u ++ ")", true⟩]
            | _, _ => []
  else []

/-- The characters before the first newline. -/
def firstLineChars : List Char → List Char
  | [] => []
  | c :: cs => if c = '\n' then [] else c :: firstLineChars cs

/-- JS `s.split('\n')[0]`: the first line of a string. -/
def firstLine (s : String) : String := String.mk (firstLineChars s.data)

/-- One line of the push message: `・[?[{short-sha}]({url})] {first line}`. -/
def commitLine (c : Json) : Option String :=
  match jGetStr c "id", jGetStr c "url", jGetStr c "message" with
  | some i, some u, some m =>
    some ("・[?[" ++ i.take 7 ++ "](" ++ u ++ ")] " ++ firstLine m)
  | _, _, _ => none

/-- The mapped commit lines, `none` when a commit misses a field the source
would read. -/
def commitLines : List Json → Option (List String)
  | [] => some []
  | c :: cs =>
    match commitLine c, commitLines cs with
    | some l, some ls => some (l :: ls)
    | _, _ => none

/-- `handler.on('push', ...)`: only `refs/heads/develop`; pusher, commit count
with the compare link, then the commits in reverse order. -/
def handlePush (event : Json) : List Post :=
  if jGetStr event "ref" = some "refs/heads/develop" then
    match event.jGet "pusher" >>= fun p => jGetStr p "name",
          jGetStr event "compare",
          event.jGet "commits" >>= Json.asArr with
    | some pn, some cmp, some commits =>
      match commitLines commits.reverse with
      | some lines =>
        let n := commits.length
        [⟨"🆕 Pushed by **" ++ pn ++ "** with ?[" ++ toString n ++ " commit"
            ++ (if n > 1 then "s" else "") ++ "](" ++ cmp ++ "):"
            ++ "\n" ++ String.intercalate "\n" lines, true⟩]
      | none => []
    | _, _, _ => []
  else []

/-- `handler.on('issues', ...)`: opened / closed / reopened. -/
def handleIssues (event : Json) : List Post :=
  match event.jGet "issue", jGetStr event "action" with
  | some issue, some act =>
    let title? : Option String :=
      if act = "opened" then some "💥 Issue opened"
      else if act = "closed" then some "💮 Issue closed"
      else if act = "reopened" then some "🔥 Issue reopened"
      else none
    match title?, issue.jGet "number", jGetStr issue "title", jGetStr issue "html_url" with
    | some tt, some (.num n), some t, some u =>
      [⟨tt ++ ": #" ++ toString n ++ " \"" ++ t ++ "\"\n" ++ u, true⟩]
    | _, _, _, _ => []
  | _, _ => []

/-- `handler.on('issue_comment', ...)`: only `created`. -/
def handleIssueComment (event : Json) : List Post :=
  match event.jGet "issue", event.jGet "comment", jGetStr event "action" with
  | some issue, some comment, some "created" =>
    match jGetStr issue "title", comment.jGet "user" >>= fun u => jGetStr u "login",
          jGetStr comment "body", jGetStr comment "html_url" with
    | some t, some lg, some b, some u =>
      [⟨"💬 Commented on \"" ++ t ++ "\": " ++ lg ++ " \"<plain>" ++ b ++ "</plain>\"\n" ++ u, true⟩]
    | _, _, _, _ => []
  | _, _, _ => []

/-- `handler.on('release', ...)`: only `published`. -/
def handleRelease (event : Json) : List Post :=
  match event.jGet "release", jGetStr event "action" with
  | some release, some "published" =>
    match jGetStr release "tag_name", jGetStr release "html_url" with
    | some tag, some u =>
      [⟨"🎁 **NEW RELEASE**: [" ++ tag ++ "](" ++ u ++ ") is out. Enjoy!", true⟩]
    | _, _ => []
  | _, _ => []

/-- `handler.on('watch', ...)`: any action; published with `home = false`. -/
def handleWatch (event : Json) : List Post :=
  match event.jGet "sender" with
  | some sender =>
    match jGetStr sender "login", jGetStr sender "html_url" with
    | some lg, some u =>
      [⟨"$[spin ⭐️] Starred by ?[**" ++ lg ++ "**](" ++ u ++ ")", false⟩]
    | _, _ => []
  | none => []

/-- `handler.on('fork', ...)`. -/
def handleFork (event : Json) : List Post :=
  match event.jGet "sender", event.jGet "forkee" with
  | some sender, some repo =>
    match jGetStr sender "login", jGetStr sender "html_url", jGetStr repo "html_url" with
    | some lg, some su, some ru =>
      [⟨"$[spin.y 🍴] ?[Forked](" ++ ru ++ ") by ?[**" ++ lg ++ "**](" ++ su ++ ")", true⟩]
    | _, _, _ => []
  | _, _ => []

/-- `handler.on('pull_request', ...)`: opened / reopened / closed, with
`closed` split by the `merged` flag. -/
def handlePullRequest (event : Json) : List Post :=
  match event.jGet "pull_request", jGetStr event "action" with
  | some pr, some act =>
    match jGetStr pr "title", jGetStr pr "html_url" with
    | some t, some u =>
      if act = "opened" then
        [⟨"📦 New Pull Request: \"" ++ t ++ "\"\n" ++ u, true⟩]
      else if act = "reopened" then
        [⟨"🗿 Pull Request Reopened: \"" ++ t ++ "\"\n" ++ u, true⟩]
      else if act = "closed" then
        match pr.jGet "merged" with
        | some (.bool true) => [⟨"💯 Pull Request Merged!: \"" ++ t ++ "\"\n" ++ u, true⟩]
        | _ => [⟨"🚫 Pull Request Closed: \"" ++ t ++ "\"\n" ++ u, true⟩]
      else []
    | _, _ => []
  | _, _ => []

/-- `handler.on('pull_request_review_comment', ...)`: only `created`. -/
def handlePRReviewComment (event : Json) : List Post :=
  match event.jGet "pull_request", event.jGet "comment", jGetStr event "action" with
  | some pr, some comment, some "created" =>
    match jGetStr pr "title", comment.jGet "user" >>= fun u => jGetStr u "login",
          jGetStr comment "body", jGetStr comment "html_url" with
    | some t, some lg, some b, some u =>
      [⟨"💬 Review commented on \"" ++ t ++ "\": " ++ lg ++ " \"<plain>" ++ b ++ "</plain>\"\n" ++ u, true⟩]
    | _, _, _, _ => []
  | _, _, _ => []

/-- `handler.on('pull_request_review', ...)`: returns first when
`review.body` is `undefined`, `null`, or has length `<= 0`; then only the
`submitted` action posts. A non-string body (never sent by GitHub, and not
exercised by any claim) is modelled as no post. -/
def handleReview (event : Json) : List Post :=
  match event.jGet "pull_request", event.jGet "review" with
  | some pr, some rv =>
    match rv.jGet "body" with
    | none => []
    | some .null => []
    | some (.str s) =>
      if s.length ≤ 0 then []
      else
        match jGetStr event "action" with
        | some "submitted" =>
          match jGetStr pr "title", rv.jGet "user" >>= fun u => jGetStr u "login",
                jGetStr rv "html_url" with
          | some t, some lg, some u =>
            [⟨"👀 Review submitted: \"" ++ t ++ "\": " ++ lg ++ " \"<plain>" ++ s ++ "</plain>\"\n" ++ u, true⟩]
          | _, _, _ => []
        | _ => []
    | some _ => []
  | _, _ => []

/-- `handler.on('discussion', ...)`: created / closed / reopened / answered;
`answered` links the answer instead of the discussion. -/
def handleDiscussion (event : Json) : List Post :=
  match event.jGet "discussion", jGetStr event "action" with
  | some discussion, some act =>
    let tu? : Option (String × Option String) :=
      if act = "created" then some ("💭 Discussion opened", jGetStr discussion "html_url")
      else if act = "closed" then some ("💮 Discussion closed", jGetStr discussion "html_url")
      else if act = "reopened" then some ("🔥 Discussion reopened", jGetStr discussion "html_url")
      else if act = "answered" then some ("✅ Discussion marked answer", jGetStr discussion "answer_html_url")
      else none
    match tu?, discussion.jGet "number", jGetStr discussion "title" with
    | some (tt, some u), some (.num n), some t =>
      [⟨tt ++ ": #" ++ toString n ++ " \"" ++ t ++ "\"\n" ++ u, true⟩]
    | _, _, _ => []
  | _, _ => []

/-- `handler.on('discussion_comment', ...)`: only `created`. -/
def handleDiscussionComment (event : Json) : List Post :=
  match event.jGet "discussion", event.jGet "comment", jGetStr event "action" with
  | some discussion, some comment, some "created" =>
    match jGetStr discussion "title", comment.jGet "user" >>= fun u => jGetStr u "login",
          jGetStr comment "body", jGetStr comment "html_url" with
    | some t, some lg, some b, some u =>
      [⟨"💬 Commented on \"" ++ t ++ "\": " ++ lg ++ " \"<plain>" ++ b ++ "</plain>\"\n" ++ u, true⟩]
    | _, _, _, _ => []
  | _, _, _ => []

/-! ## Configuration and the handler registry -/

/-- `process.env`: environment variables, absent ones being `undefined`. -/
def Env : Type := String → Option String

/-- `isHookEnabled`: strict string comparison of the variable with `'true'`. -/
def isHookEnabled (env : Env) (hookName : String) : Bool :=
  env hookName = some "true"

/-- The event-type / environment-flag pairs of the twelve
`if (isHookEnabled(...)) handler.on(...)` registrations. -/
def supportedHooks : List (String × String) :=
  [("status", "HOOK_STATUS"), ("push", "HOOK_PUSH"), ("issues", "HOOK_ISSUES"),
   ("issue_comment", "HOOK_ISSUE_COMMENT"), ("release", "HOOK_RELEASE"),
   ("watch", "HOOK_WATCH"), ("fork", "HOOK_FORK"),
   ("pull_request", "HOOK_PULL_REQUEST"),
   ("pull_request_review_comment", "HOOK_PULL_REQUEST_REVIEW_COMMENT"),
   ("pull_request_review", "HOOK_PULL_REQUEST_REVIEW"),
   ("discussion", "HOOK_DISCUSSION"), ("discussion_comment", "HOOK_DISCUSSION_COMMENT")]

/-- The `EventEmitter` listener table after startup: each supported event name
maps to its handler when its flag is enabled, and the source registers at most
one listener per name. `handler.emit` on any other name finds no listener. -/
def registry (env : Env) (fetch : Except Unit Json) : String → Option (Json → List Post) :=
  fun name =>
    if name = "status" then
      if isHookEnabled env "HOOK_STATUS" then some (handleStatus fetch) else none
    else if name = "push" then
      if isHookEnabled env "HOOK_PUSH" then some handlePush else none
    else if name = "issues" then
      if isHookEnabled env "HOOK_ISSUES" then some handleIssues else none
    else if name = "issue_comment" then
      if isHookEnabled env "HOOK_ISSUE_COMMENT" then some handleIssueComment else none
    else if name = "release" then
      if isHookEnabled env "HOOK_RELEASE" then some handleRelease else none
    else if name = "watch" then
      if isHookEnabled env "HOOK_WATCH" then some handleWatch else none
    else if name = "fork" then
      if isHookEnabled env "HOOK_FORK" then some handleFork else none
    else if name = "pull_request" then
      if isHookEnabled env "HOOK_PULL_REQUEST" then some handlePullRequest else none
    else if name = "pull_request_review_comment" then
      if isHookEnabled env "HOOK_PULL_REQUEST_REVIEW_COMMENT" then some handlePRReviewComment else none
    else if name = "pull_request_review" then
      if isHookEnabled env "HOOK_PULL_REQUEST_REVIEW" then some handleReview else none
    else if name = "discussion" then
      if isHookEnabled env "HOOK_DISCUSSION" then some handleDiscussion else none
    else if name = "discussion_comment" then
      if isHookEnabled env "HOOK_DISCUSSION_COMMENT" then some handleDiscussionComment else none
    else none

/-! ## Source-IP allow list -/

/-- An IPv4 literal `a.b.c.d` as its 32-bit value. -/
def ipv4 (a b c d : Nat) : Nat := ((a * 256 + b) * 256 + c) * 256 + d

/-- `Netmask(cidr).contains(ip)`: the top `maskBits` bits agree with the
block's base address. -/
def inBlock (base maskBits ip : Nat) : Bool :=
  ip / 2 ^ (32 - maskBits) = base / 2 ^ (32 - maskBits)

/-- `allowedIPBlocks.some(block => block.contains(ip))` over GitHub's four
published webhook CIDR blocks. -/
def isAllowedIP (ip : Nat) : Bool :=
  inBlock (ipv4 192 30 252 0) 22 ip || inBlock (ipv4 185 199 108 0) 22 ip ||
  inBlock (ipv4 140 82 112 0) 20 ip || inBlock (ipv4 143 55 64 0) 20 ip

/-! ## The HTTP pipeline for `POST /github` -/

/-- The request-scoped inputs the pipeline reads: `ctx.ip` (an IPv4 value),
the raw body bytes, and the two GitHub headers (absent ones `undefined`). -/
structure Req where
  ip : Nat
  rawBody : String
  xHubSignature : Option String
  xGithubEvent : Option String

/-- What one request observably produces: the HTTP status and body, the event
name whose registered handler ran (if any), and the `post` calls made. -/
structure Outcome where
  status : Nat
  body : String
  invoked : Option String
  posts : List Post
deriving DecidableEq

/-- The signature value the route computes and compares against:
`'sha1=' + hex(HMAC-SHA1(secret, JSON.stringify(parsed body)))`. -/
def expectedSig (secret : String) (body : Json) : String :=
  "sha1=" ++ hexDigest (hmacSha1 (utf8 secret) (utf8 (Json.stringify body)))

/-- The `router.post('/github', ...)` handler, given the body already parsed
by the `koa-bodyparser` middleware. `Buffer.equals` on the two signature
buffers is byte equality of the strings. Emitting the reserved name `error`
with no listener registered — and none of the twelve registrations is for
`error` — makes the `EventEmitter` throw `ERR_UNHANDLED_ERROR`; Koa catches
the throw before `ctx.status = 204` runs and answers 500
"Internal Server Error". -/
def githubRoute (secret : String) (env : Env) (fetch : Except Unit Json)
    (req : Req) (body : Json) : Outcome :=
  match req.xHubSignature with
  | none => ⟨400, "Invalid or missing GitHub signature", none, []⟩
  | some sig =>
    if sig = expectedSig secret body then
      match req.xGithubEvent with
      | none => ⟨204, "", none, []⟩
      | some name =>
        match registry env fetch name with
        | some h => ⟨204, "", some name, h body⟩
        | none =>
          if name = "error" then ⟨500, "Internal Server Error", none, []⟩
          else ⟨204, "", none, []⟩
    else ⟨400, "Invalid GitHub signature", none, []⟩

/-- The whole middleware stack. The source registers `bodyParser()` before
the IP-validation middleware, so an unparseable body is rejected by the
parser with status 400 (its error message modelled as a constant) before the
allow list is ever consulted; only a request whose body parses reaches the
IP check and then the route. `secret` models `process.env.HOOK_SECRET`,
assumed configured. -/
def app (secret : String) (env : Env) (fetch : Except Unit Json) (req : Req) : Outcome :=
  match Json.parse req.rawBody with
  | none => ⟨400, "invalid JSON", none, []⟩
  | some body =>
    if isAllowedIP req.ip then githubRoute secret env fetch req body
    else ⟨403, "Access denied", none, []⟩

/-! ## Theorems -/

/-- C4 counterexample: the source registers `bodyParser()` before the IP
middleware, so a request from a denied IP whose body is malformed JSON is
answered by the parser with status 400, not with the claimed 403 — the
response is not 403 "regardless of body". (No handler runs and nothing is
published there either.) -/
theorem c4_denied_ip_malformed_body :
    isAllowedIP (ipv4 127 0 0 1) = false ∧
    (app "s" (fun _ => none) (.error ())
        ⟨ipv4 127 0 0 1, "\x7b", some "sha1=00", some "push"⟩).status = 400 ∧
    ¬(app "s" (fun _ => none) (.error ())
        ⟨ipv4 127 0 0 1, "\x7b", some "sha1=00", some "push"⟩).status = 403 ∧
    (app "s" (fun _ => none) (.error ())
        ⟨ipv4 127 0 0 1, "\x7b", some "sha1=00", some "push"⟩).invoked = none ∧
    (app "s" (fun _ => none) (.error ())
        ⟨ipv4 127 0 0 1, "\x7b", some "sha1=00", some "push"⟩).posts = [] := by
  decide

/-- C4 (amended): a request whose source IP is outside all four configured
CIDR blocks and whose body passes the body parser (well-formed JSON) is
answered with status 403 and the plain-text body "Access denied", regardless
of headers, and no downstream component runs: no signature check matters, no
handler is invoked and no publish call occurs. (A malformed body is instead
rejected with the parser's 400 before the IP check, since `bodyParser()` is
registered first.) -/
theorem c4_ip_denied (secret : String) (env : Env) (fetch : Except Unit Json)
    (req : Req) (b : Json) (hb : Json.parse req.rawBody = some b)
    (h : isAllowedIP req.ip = false) :
    app secret env fetch req = ⟨403, "Access denied", none, []⟩ := by
  unfold app
  rw [hb, h]
  simp

theorem c4_ip_denied_witness :
    isAllowedIP (ipv4 127 0 0 1) = false ∧
      app "s" (fun _ => none) (.error ())
        ⟨ipv4 127 0 0 1, "\x7b\x7d", some "sha1=00", some "push"⟩ =
        ⟨403, "Access denied", none, []⟩ :=
  ⟨by decide, c4_ip_denied "s" (fun _ => none) (.error ())
    ⟨ipv4 127 0 0 1, "\x7b\x7d", some "sha1=00", some "push"⟩ (.obj []) rfl (by decide)⟩

/-- C10: a request from an allowed IP with a valid signature but no
`x-github-event` header is answered 204 with empty body, no handler is
invoked, and no publish call occurs. -/
theorem c10_missing_event_header (secret : String) (env : Env) (fetch : Except Unit Json)
    (req : Req) (b : Json) (hip : isAllowedIP req.ip = true)
    (hb : Json.parse req.rawBody = some b)
    (hsig : req.xHubSignature = some (expectedSig secret b))
    (hev : req.xGithubEvent = none) :
    app secret env fetch req = ⟨204, "", none, []⟩ := by
  unfold app githubRoute
  rw [hip, hb, hsig, hev]
  simp

set_option maxRecDepth 100000 in
theorem c10_missing_event_header_witness :
    app "s3cr3t" (fun _ => none) (.error ())
        ⟨ipv4 140 82 112 5, "\x7b\x7d", some (expectedSig "s3cr3t" (.obj [])), none⟩ =
      ⟨204, "", none, []⟩ :=
  c10_missing_event_header "s3cr3t" (fun _ => none) (.error ())
    ⟨ipv4 140 82 112 5, "\x7b\x7d", some (expectedSig "s3cr3t" (.obj [])), none⟩
    (.obj []) (by decide) rfl rfl rfl

set_option maxRecDepth 100000 in
/-- C5 counterexample: for the event-type name `error` — a name with no
registered handler — the response is not 204 and an error IS raised: the
`EventEmitter` throws `ERR_UNHANDLED_ERROR` on emitting `error` with no
listener, and Koa answers 500 "Internal Server Error". Zero publish calls
still occur. -/
theorem c5_error_event_throws :
    registry (fun _ => none) (.error ()) "error" = none ∧
    app "k2" (fun _ => none) (.error ())
        ⟨ipv4 140 82 112 6, "\x7b\x7d", some (expectedSig "k2" (.obj [])), some "error"⟩ =
      ⟨500, "Internal Server Error", none, []⟩ := by
  refine ⟨rfl, by decide⟩

/-- C5 (amended): a request that passes the IP and signature checks invokes
at most one handler, determined solely by the `x-github-event` header; an
event-type name with no registered handler, other than the reserved name
`error`, yields 204, invokes no handler, raises no error, and produces zero
publish calls; the name `error` (for which no handler is ever registered)
makes the unhandled `EventEmitter` `error` event throw, and the response is
500 "Internal Server Error", still with no handler invocation and zero
publish calls. -/
theorem c5_single_dispatch (secret : String) (env : Env) (fetch : Except Unit Json)
    (req : Req) (b : Json) (hip : isAllowedIP req.ip = true)
    (hb : Json.parse req.rawBody = some b)
    (hsig : req.xHubSignature = some (expectedSig secret b)) :
    ((app secret env fetch req).invoked = none ∨
      (app secret env fetch req).invoked = req.xGithubEvent) ∧
    (∀ n, req.xGithubEvent = some n → registry env fetch n = none → n ≠ "error" →
      app secret env fetch req = ⟨204, "", none, []⟩) ∧
    (req.xGithubEvent = some "error" →
      app secret env fetch req = ⟨500, "Internal Server Error", none, []⟩) := by
  have happ : app secret env fetch req = githubRoute secret env fetch req b := by
    unfold app; rw [hb, hip]; rfl
  refine ⟨?_, ?_, ?_⟩
  · rw [happ]; unfold githubRoute; rw [hsig]
    cases hev : req.xGithubEvent with
    | none => left; simp
    | some name =>
      cases hreg : registry env fetch name with
      | none =>
        by_cases hne : name = "error"
        · subst hne; left; simp [hreg]
        · left; simp [hreg, hne]
      | some h => right; simp [hreg]
  · intro n hev hreg hne
    rw [happ]; unfold githubRoute; rw [hsig, hev]
    simp [hreg, hne]
  · intro herr
    rw [happ]; unfold githubRoute; rw [hsig, herr]
    simp [show registry env fetch "error" = none from rfl]

set_option maxRecDepth 100000 in
theorem c5_single_dispatch_witness :
    app "s3cr3t" (fun _ => none) (.error ())
        ⟨ipv4 140 82 112 5, "\x7b\x7d", some (expectedSig "s3cr3t" (.obj [])), some "deployment"⟩ =
      ⟨204, "", none, []⟩ :=
  (c5_single_dispatch "s3cr3t" (fun _ => none) (.error ())
      ⟨ipv4 140 82 112 5, "\x7b\x7d", some (expectedSig "s3cr3t" (.obj [])), some "deployment"⟩
      (.obj []) (by decide) rfl rfl).2.1 "deployment" rfl rfl (by decide)

/-- A supported hook's registry entry is absent exactly when its flag is off. -/
theorem registry_none_iff (env : Env) (fetch : Except Unit Json) (ev flag : String)
    (hmem : (ev, flag) ∈ supportedHooks) :
    registry env fetch ev = none ↔ isHookEnabled env flag = false := by
  simp only [supportedHooks, List.mem_cons, List.not_mem_nil, or_false,
    Prod.mk.injEq] at hmem
  rcases hmem with h | h | h | h | h | h | h | h | h | h | h | h <;>
    obtain ⟨rfl, rfl⟩ := h <;>
    simp [registry, ite_eq_right_iff]

/-- Every publish a request produces comes from the registered handler of its
`x-github-event` name, applied to the parsed body. -/
theorem app_posts_from_registry (secret : String) (env : Env) (fetch : Except Unit Json)
    (req : Req) :
    (app secret env fetch req).posts = [] ∨
    ∃ n h b, req.xGithubEvent = some n ∧ registry env fetch n = some h ∧
      Json.parse req.rawBody = some b ∧ (app secret env fetch req).posts = h b := by
  unfold app githubRoute
  cases hpb : Json.parse req.rawBody with
  | none => left; simp
  | some b =>
    cases hip : isAllowedIP req.ip with
    | false => left; simp
    | true =>
      simp only [if_pos rfl]
      cases hsig : req.xHubSignature with
      | none => left; simp
      | some s =>
        by_cases hs : s = expectedSig secret b
        · cases hev : req.xGithubEvent with
          | none => left; simp [hs]
          | some n =>
            cases hreg : registry env fetch n with
            | none =>
              left
              by_cases hne : n = "error"
              · subst hne; simp [hs, hreg]
              · simp [hs, hreg, hne]
            | some h =>
              right
              exact ⟨n, h, b, rfl, hreg, rfl, by simp [hs, hreg]⟩
        · left; simp [hs]

/-- C6: when a supported event type's configuration flag is not enabled, no
handler is registered for it, and every incoming event of that type produces
zero publish calls, whatever its payload. -/
theorem c6_disabled_hook_silent (secret : String) (env : Env) (fetch : Except Unit Json)
    (req : Req) (ev flag : String) (hmem : (ev, flag) ∈ supportedHooks)
    (hoff : env flag ≠ some "true") (hev : req.xGithubEvent = some ev) :
    registry env fetch ev = none ∧ (app secret env fetch req).posts = [] := by
  have hreg : registry env fetch ev = none :=
    (registry_none_iff env fetch ev flag hmem).2 (by simp [isHookEnabled, hoff])
  refine ⟨hreg, ?_⟩
  rcases app_posts_from_registry secret env fetch req with h | ⟨n, hh, b, hn, hr, _, _⟩
  · exact h
  · rw [hev] at hn
    cases hn
    rw [hreg] at hr
    cases hr

set_option maxRecDepth 100000 in
theorem c6_disabled_hook_silent_witness :
    registry (fun s => if s = "HOOK_PUSH" then some "false" else none) (.error ()) "push" = none ∧
    (app "s3cr3t" (fun s => if s = "HOOK_PUSH" then some "false" else none) (.error ())
        ⟨ipv4 140 82 112 5,
         "\x7b\"ref\":\"refs/heads/develop\",\"pusher\":\x7b\"name\":\"alice\"\x7d,\"compare\":\"c\",\"commits\":[]\x7d",
         some (expectedSig "s3cr3t"
           (.obj [("ref", .str "refs/heads/develop"), ("pusher", .obj [("name", .str "alice")]),
                  ("compare", .str "c"), ("commits", .arr [])])),
         some "push"⟩).posts = [] :=
  c6_disabled_hook_silent "s3cr3t" (fun s => if s = "HOOK_PUSH" then some "false" else none)
    (.error ())
    ⟨ipv4 140 82 112 5,
     "\x7b\"ref\":\"refs/heads/develop\",\"pusher\":\x7b\"name\":\"alice\"\x7d,\"compare\":\"c\",\"commits\":[]\x7d",
     some (expectedSig "s3cr3t"
       (.obj [("ref", .str "refs/heads/develop"), ("pusher", .obj [("name", .str "alice")]),
              ("compare", .str "c"), ("commits", .arr [])])),
     some "push"⟩
    "push" "HOOK_PUSH" (by decide) (by decide) rfl

/-- C9: a supported event type's handler is registered if and only if its
environment variable is the exact string `'true'`; any other value, or no
value, leaves the hook disabled. -/
theorem c9_exact_true_flag (env : Env) (fetch : Except Unit Json) (ev flag : String)
    (hmem : (ev, flag) ∈ supportedHooks) :
    (registry env fetch ev).isSome = true ↔ env flag = some "true" := by
  have h := registry_none_iff env fetch ev flag hmem
  constructor
  · intro hs
    by_contra hne
    have hoff : isHookEnabled env flag = false := by simp [isHookEnabled, hne]
    rw [h.2 hoff] at hs
    simp at hs
  · intro htrue
    have hon : ¬registry env fetch ev = none := by
      intro h0
      have := h.1 h0
      simp [isHookEnabled, htrue] at this
    cases hh : registry env fetch ev with
    | none => exact absurd hh hon
    | some _ => rfl

theorem c9_exact_true_flag_witness :
    (registry (fun s => if s = "HOOK_PUSH" then some "true" else none) (.error ()) "push").isSome = true ∧
    (registry (fun s => if s = "HOOK_PUSH" then some "TRUE" else none) (.error ()) "push").isSome = false ∧
    (registry (fun _ => none) (.error ()) "push").isSome = false := by
  refine ⟨?_, ?_, ?_⟩
  · exact (c9_exact_true_flag (fun s => if s = "HOOK_PUSH" then some "true" else none)
      (.error ()) "push" "HOOK_PUSH" (by decide)).2 (by simp)
  · have h := c9_exact_true_flag (fun s => if s = "HOOK_PUSH" then some "TRUE" else none)
      (.error ()) "push" "HOOK_PUSH" (by decide)
    cases hh : (registry (fun s => if s = "HOOK_PUSH" then some "TRUE" else none)
        (.error ()) "push").isSome with
    | false => rfl
    | true => exact absurd (h.1 hh) (by simp)
  · have h := c9_exact_true_flag (fun _ => none) (.error ()) "push" "HOOK_PUSH" (by decide)
    cases hh : (registry (fun _ : String => (none : Option String)) (.error ()) "push").isSome with
    | false => rfl
    | true => exact absurd (h.1 hh) (by simp)

/-- C7: a `pull_request_review` event with a missing, null, or empty review
body publishes nothing regardless of the action; with action `submitted` and a
non-empty body, exactly one publish occurs and its message contains the quoted
review body. -/
theorem c7_review_body (ev pr rv : Json) (t lg u : String)
    (hpr : ev.jGet "pull_request" = some pr)
    (hrv : ev.jGet "review" = some rv)
    (ht : jGetStr pr "title" = some t)
    (hlg : rv.jGet "user" >>= (fun x => jGetStr x "login") = some lg)
    (hu : jGetStr rv "html_url" = some u) :
    ((rv.jGet "body" = none ∨ rv.jGet "body" = some .null ∨ rv.jGet "body" = some (.str "")) →
      handleReview ev = []) ∧
    (∀ s, rv.jGet "body" = some (.str s) → s ≠ "" → jGetStr ev "action" = some "submitted" →
      handleReview ev =
        [⟨"👀 Review submitted: \"" ++ t ++ "\": " ++ lg ++ " \"<plain>" ++ s
            ++ "</plain>\"\n" ++ u, true⟩]) := by
  constructor
  · intro hbody
    rcases hbody with h | h | h <;> simp [handleReview, hpr, hrv, h]
  · intro s hb hs hact
    have hlen : ¬s.length ≤ 0 := by
      simp only [Nat.le_zero]
      intro h0
      apply hs
      cases s with
      | mk data =>
        cases data with
        | nil => rfl
        | cons c cs => simp [String.length] at h0
    simp [handleReview, hpr, hrv, hb, hact, ht, hu, hlg, hlen]

theorem c7_review_body_witness :
    handleReview (.obj [("action", .str "submitted"),
      ("pull_request", .obj [("title", .str "Add feature")]),
      ("review", .obj [("body", .str "nice"), ("user", .obj [("login", .str "bob")]),
        ("html_url", .str "https://x/r/1")])]) =
      [⟨"👀 Review submitted: \"Add feature\": bob \"<plain>nice</plain>\"\nhttps://x/r/1", true⟩] ∧
    handleReview (.obj [("action", .str "submitted"),
      ("pull_request", .obj [("title", .str "Add feature")]),
      ("review", .obj [("body", .str ""), ("user", .obj [("login", .str "bob")]),
        ("html_url", .str "https://x/r/1")])]) = [] :=
  ⟨(c7_review_body
      (.obj [("action", .str "submitted"),
        ("pull_request", .obj [("title", .str "Add feature")]),
        ("review", .obj [("body", .str "nice"), ("user", .obj [("login", .str "bob")]),
          ("html_url", .str "https://x/r/1")])])
      (.obj [("title", .str "Add feature")])
      (.obj [("body", .str "nice"), ("user", .obj [("login", .str "bob")]),
        ("html_url", .str "https://x/r/1")])
      "Add feature" "bob" "https://x/r/1" rfl rfl rfl rfl rfl).2 "nice" rfl (by decide) rfl,
   (c7_review_body
      (.obj [("action", .str "submitted"),
        ("pull_request", .obj [("title", .str "Add feature")]),
        ("review", .obj [("body", .str ""), ("user", .obj [("login", .str "bob")]),
          ("html_url", .str "https://x/r/1")])])
      (.obj [("title", .str "Add feature")])
      (.obj [("body", .str ""), ("user", .obj [("login", .str "bob")]),
        ("html_url", .str "https://x/r/1")])
      "Add feature" "bob" "https://x/r/1" rfl rfl rfl rfl rfl).1 (Or.inr (Or.inr rfl))⟩

/-- The commit object shape the push handler reads: `id`, `url`, `message`. -/
def jsonOfCommit (t : String × String × String) : Json :=
  .obj [("id", .str t.1), ("url", .str t.2.1), ("message", .str t.2.2)]

/-- The claim's per-commit line: 7-character short sha and first message line. -/
def lineOfCommit (t : String × String × String) : String :=
  "・[?[" ++ t.1.take 7 ++ "](" ++ t.2.1 ++ ")] " ++ firstLine t.2.2

/-- Formatting well-formed commit objects always succeeds, line by line. -/
theorem commitLines_map (l : List (String × String × String)) :
    commitLines (l.map jsonOfCommit) = some (l.map lineOfCommit) := by
  induction l with
  | nil => rfl
  | cons a l ih =>
    simp [commitLines, ih, show commitLine (jsonOfCommit a) = some (lineOfCommit a) from rfl]

/-- C8: a push event whose ref is not `refs/heads/develop` publishes nothing;
a push to `refs/heads/develop` publishes exactly one message naming the
pusher, stating the commit count with the compare link, and listing the
commits in reverse payload order, each with its 7-character short sha and the
first line of its message. -/
theorem c8_push_message (ev : Json) (pn cmp : String)
    (cs : List (String × String × String))
    (hp : ev.jGet "pusher" >>= (fun p => jGetStr p "name") = some pn)
    (hcmp : jGetStr ev "compare" = some cmp)
    (hcs : ev.jGet "commits" >>= Json.asArr = some (cs.map jsonOfCommit)) :
    (∀ r, jGetStr ev "ref" = some r → r ≠ "refs/heads/develop" → handlePush ev = []) ∧
    (jGetStr ev "ref" = none → handlePush ev = []) ∧
    (jGetStr ev "ref" = some "refs/heads/develop" →
      handlePush ev =
        [⟨"🆕 Pushed by **" ++ pn ++ "** with ?[" ++ toString cs.length ++ " commit"
            ++ (if cs.length > 1 then "s" else "") ++ "](" ++ cmp ++ "):"
            ++ "\n" ++ String.intercalate "\n" ((cs.map lineOfCommit).reverse), true⟩]) := by
  refine ⟨?_, ?_, ?_⟩
  · intro r hr hne
    unfold handlePush
    rw [hr, if_neg (by simp [hne])]
  · intro h
    unfold handlePush
    rw [h, if_neg (by simp)]
  · intro h
    unfold handlePush
    rw [h, if_pos rfl, hp, hcmp, hcs]
    have hlines : commitLines (cs.map jsonOfCommit).reverse =
        some ((cs.map lineOfCommit).reverse) := by
      rw [← List.map_reverse, commitLines_map, List.map_reverse]
    simp [hlines]

theorem c8_push_message_witness :
    handlePush (.obj [("ref", .str "refs/heads/develop"),
      ("pusher", .obj [("name", .str "alice")]),
      ("compare", .str "https://x/c"),
      ("commits", .arr [jsonOfCommit ("aaaaaaaaa1", "u1", "first\nbody"),
        jsonOfCommit ("bbbbbbbbb2", "u2", "second"),
        jsonOfCommit ("ccccccccc3", "u3", "third")])]) =
      [⟨"🆕 Pushed by **alice** with ?[3 commits](https://x/c):\n・[?[ccccccc](u3)] third\n・[?[bbbbbbb](u2)] second\n・[?[aaaaaaa](u1)] first", true⟩] ∧
    handlePush (.obj [("ref", .str "refs/heads/main"),
      ("pusher", .obj [("name", .str "alice")]),
      ("compare", .str "https://x/c"),
      ("commits", .arr [jsonOfCommit ("aaaaaaaaa1", "u1", "first\nbody")])]) = [] := by
  constructor
  · have h := (c8_push_message
      (.obj [("ref", .str "refs/heads/develop"),
        ("pusher", .obj [("name", .str "alice")]),
        ("compare", .str "https://x/c"),
        ("commits", .arr [jsonOfCommit ("aaaaaaaaa1", "u1", "first\nbody"),
          jsonOfCommit ("bbbbbbbbb2", "u2", "second"),
          jsonOfCommit ("ccccccccc3", "u3", "third")])])
      "alice" "https://x/c"
      [("aaaaaaaaa1", "u1", "first\nbody"), ("bbbbbbbbb2", "u2", "second"),
        ("ccccccccc3", "u3", "third")] rfl rfl rfl).2.2 rfl
    rw [h]
    decide
  · exact (c8_push_message
      (.obj [("ref", .str "refs/heads/main"),
        ("pusher", .obj [("name", .str "alice")]),
        ("compare", .str "https://x/c"),
        ("commits", .arr [jsonOfCommit ("aaaaaaaaa1", "u1", "first\nbody")])])
      "alice" "https://x/c"
      [("aaaaaaaaa1", "u1", "first\nbody")] rfl rfl rfl).1 "refs/heads/main" rfl (by decide)

/-- A well-formed failing `status` payload used to exercise the handler. -/
def statusEvC2 : Json :=
  .obj [("state", .str "failure"),
        ("commit", .obj [("parents", .arr [.obj [("url", .str "https://api/x")]]),
                         ("commit", .obj [("message", .str "fix build")]),
                         ("html_url", .str "https://x/commit/1")])]

/-- C2 counterexample: for a status event with state `failure`, when the
follow-up GET fails (rejected fetch or unparseable body), the handler's catch
only logs and publishes nothing — the default "build failed" message is NOT
published, contrary to the claim. The same event does publish the default
message when the GET resolves with an empty array, showing the payload is
otherwise well-formed. -/
theorem c2_get_failure_publishes_nothing :
    jGetStr statusEvC2 "state" = some "failure" ∧
    handleStatus (.error ()) statusEvC2 = [] ∧
    handleStatus (.ok (.arr [])) statusEvC2 =
      [⟨"🚨 **BUILD FAILED** 🚨: [fix build](https://x/commit/1)", true⟩] := by
  decide

/-- C2 (amended): for a status event with state `failure` or `error`: when
the follow-up GET resolves with a value other than `null` whose first element
has state `failure` or `error`, exactly one "still failed" message is
published; when it resolves with a value other than `null` whose first
element is absent (empty array included) or without a failing state, the
default "build failed" message is published (this includes non-2xx responses
with a JSON body, which `node-fetch` resolves rather than rejects); when the
GET is rejected (network error or malformed JSON), or resolves with `null`
(indexing which throws), the failure is only logged and no message is
published. -/
theorem c2_status_followup (fetchOk ev commit par : Json) (m u : String)
    (hst : jGetStr ev "state" = some "failure" ∨ jGetStr ev "state" = some "error")
    (hc : ev.jGet "commit" = some commit)
    (hp : commit.jGet "parents" >>= jIndex0 = some par)
    (hm : commit.jGet "commit" >>= (fun c => jGetStr c "message") = some m)
    (hu : jGetStr commit "html_url" = some u) :
    (∀ st, parentState0 fetchOk = some st →
        (st = some "failure" ∨ st = some "error") →
      handleStatus (.ok fetchOk) ev =
        [⟨"⚠️ **BUILD STILL FAILED** ⚠️: [" ++ m ++ "](" ++ u ++ ")", true⟩]) ∧
    (∀ st, parentState0 fetchOk = some st →
        ¬(st = some "failure" ∨ st = some "error") →
      handleStatus (.ok fetchOk) ev =
        [⟨"🚨 **BUILD FAILED** 🚨: [" ++ m ++ "](" ++ u ++ ")", true⟩]) ∧
    handleStatus (.error ()) ev = [] ∧
    handleStatus (.ok .null) ev = [] := by
  refine ⟨?_, ?_, ?_, ?_⟩
  · intro st hps hfail
    rcases hst with h | h <;> rcases hfail with hf | hf <;>
      simp [handleStatus, h, hc, hp, hm, hu, hps, hf]
  · intro st hps hnot
    rcases hst with h | h <;>
      (simp [handleStatus, h, hc, hp, hm, hu, hps]
       intro hf
       exact absurd hf hnot)
  · rcases hst with h | h <;> simp [handleStatus, h, hc, hp]
  · rcases hst with h | h <;> simp [handleStatus, parentState0, h, hc, hp]

theorem c2_status_followup_witness :
    handleStatus (.ok (.arr [.obj [("state", .str "error")]])) statusEvC2 =
      [⟨"⚠️ **BUILD STILL FAILED** ⚠️: [fix build](https://x/commit/1)", true⟩] :=
  (c2_status_followup (.arr [.obj [("state", .str "error")]]) statusEvC2
    (.obj [("parents", .arr [.obj [("url", .str "https://api/x")]]),
           ("commit", .obj [("message", .str "fix build")]),
           ("html_url", .str "https://x/commit/1")])
    (.obj [("url", .str "https://api/x")]) "fix build" "https://x/commit/1"
    (Or.inl rfl) rfl rfl rfl rfl).1 (some "error") rfl (Or.inr rfl)

/-- The raw request body of the C1 failing input: note the space after the
colon, which JSON.stringify of the parsed body does not reproduce. -/
def c1RawBody : String := "\x7b\"a\": 1\x7d"

set_option maxRecDepth 100000 in
/-- C1: the verifier does not compute the digest over the raw body bytes as
received; it recomputes it over a re-serialization of the parsed body. For
the raw body with a space after the colon, the signature
'sha1=' + hex(HMAC-SHA1(secret, raw bytes)) — exactly what the claim says
must succeed — is rejected with 400 "Invalid GitHub signature", because the
route hashes JSON.stringify(parsed body), which drops the space. -/
theorem c1_raw_body_signature_rejected :
    Json.parse c1RawBody = some (.obj [("a", .num 1)]) ∧
    Json.stringify (.obj [("a", .num 1)]) ≠ c1RawBody ∧
    app "mysecret" (fun _ => none) (.error ())
        ⟨ipv4 140 82 112 5, c1RawBody,
         some ("sha1=" ++ hexDigest (hmacSha1 (utf8 "mysecret") (utf8 c1RawBody))),
         some "push"⟩ =
      ⟨400, "Invalid GitHub signature", none, []⟩ :=
  ⟨rfl, by decide, by decide⟩

end GhNotify
